import Mathlib

/-!
Verification of the audio playback controller (`VGlobalAudioTrack`-style track
component) and the collapsible tag section (`VCollapsibleTagSection.vue`) of
the repository, as a shallow embedding in Lean.

JavaScript numbers that may be `NaN` are modelled as `Option ℚ` with `none`
standing for `NaN`; `undefined`-able values get a further `Option` layer.
Element inline offsets (`offsetLeft`) are integers, as in the DOM.
-/

namespace Spec2Proof

/-- A JavaScript number that may be `NaN`: `none` is `NaN`. -/
abbrev JsNum := Option ℚ

/-- JavaScript truthiness of a number: `0` and `NaN` are falsy. -/
def jsTruthy (n : JsNum) : Bool :=
  match n with
  | some q => q != 0
  | none => false

/-- `isNaN` on the model. -/
def jsIsNaN (n : JsNum) : Bool := n.isNone

/-- Multiplication; any `NaN` operand poisons the result. -/
def jsMul (a b : JsNum) : JsNum :=
  match a, b with
  | some x, some y => some (x * y)
  | _, _ => none

/-- Division by 1000 (the source's `props.audio.duration / 1e3`). -/
def jsDiv1000 (a : JsNum) : JsNum :=
  match a with
  | some x => some (x / 1000)
  | none => none

/-- The playback status enum (`AudioStatus` without the template-only values):
source file part_000 uses the four values below. -/
inductive AudioStatus
  | paused
  | playing
  | loading
  | played
deriving DecidableEq, Repr

/-- The bound media element, as the controller reads it: `paused` and `ended`
flags, `currentTime` (read/write) and `duration` (read, possibly `NaN`). -/
structure AudioElem where
  paused : Bool
  ended : Bool
  currentTime : JsNum
  duration : JsNum
deriving DecidableEq, Repr

/-- The controller's reactive state: the `status` ref, the `currentTime` ref,
the explicitly set value of the `duration` default-ref (`none` when never set),
the track's `hasLoaded` flag (read from props, written through the media
store), and whether the last run of the time loop rescheduled itself. -/
structure CtrlState where
  status : AudioStatus
  currentTime : JsNum
  durationOverride : Option JsNum
  hasLoaded : Bool
  loopScheduled : Bool
deriving DecidableEq, Repr

/-- Initial controller state: `status = ref("paused")`, `currentTime = ref(0)`,
the duration default-ref unset, no loop tick pending. -/
def initState (hasLoaded : Bool) : CtrlState :=
  { status := .paused
    currentTime := some 0
    durationOverride := none
    hasLoaded := hasLoaded
    loopScheduled := false }

/-- Modelled from the spec: the `default-ref` composable (not among the source
files reviewed here) yields the getter's value until the ref is explicitly
set. The getter mirrors the source initializer at part_000 lines 39-44: the
track metadata duration (milliseconds) divided by 1000 when it is a number
(`NaN` included, since `typeof NaN` is `"number"`), else `0`. -/
def durationDefault (propsDuration : Option JsNum) : JsNum :=
  match propsDuration with
  | some n => jsDiv1000 n
  | none => some 0

/-- The value the `duration` default-ref displays: the explicitly set value if
any, else the default computed from the track metadata. -/
def displayedDuration (propsDuration : Option JsNum) (s : CtrlState) : JsNum :=
  match s.durationOverride with
  | some v => v
  | none => durationDefault propsDuration

/-- part_000 lines 72-80: `updateTimeLoop` reads the active audio's current
time and re-arms itself via `requestAnimationFrame` only while an audio is
bound and the status is playing or loading; `loopScheduled` records whether
the next tick was scheduled. -/
def updateTimeLoop (audio : Option AudioElem) (s : CtrlState) : CtrlState :=
  match audio with
  | some a =>
    if s.status = .playing ∨ s.status = .loading then
      { s with currentTime := a.currentTime, loopScheduled := true }
    else
      { s with loopScheduled := false }
  | none => { s with loopScheduled := false }

/-- part_000 lines 46-53: on `play`, status becomes `playing` when the track
has loaded, else `loading`, and the time loop is (re)started. -/
def setPlaying (audio : Option AudioElem) (s : CtrlState) : CtrlState :=
  updateTimeLoop audio
    { s with status := if s.hasLoaded then .playing else .loading }

/-- part_000 line 54. -/
def setPaused (s : CtrlState) : CtrlState := { s with status := .paused }

/-- part_000 line 55. -/
def setPlayed (s : CtrlState) : CtrlState := { s with status := .played }

/-- part_000 lines 89-91: on `waiting`, status becomes `loading`. -/
def setWaiting (s : CtrlState) : CtrlState := { s with status := .loading }

/-- part_000 lines 83-88: on `playing`, the store records `hasLoaded` for the
track (reflected back into the props) and status becomes `playing`. -/
def setLoaded (s : CtrlState) : CtrlState :=
  { s with hasLoaded := true, status := .playing }

/-- part_000 lines 57-65: the `timeupdate` handler. `target` is the event's
target's `currentTime` when the event has a target (`none` models a targetless
event, which the source guards against). Only when the status is not
`playing` does the handler copy the time; a `played` status is downgraded to
`paused` to drop the replay icon. -/
def setTimeWhenPaused (target : Option JsNum) (s : CtrlState) : CtrlState :=
  match target with
  | some t =>
    if s.status = .playing then s
    else
      let s1 := { s with currentTime := t }
      if s1.status = .played then { s1 with status := .paused } else s1
  | none => s

/-- A `timeupdate` event dispatched by the bound element carries that element
as its target, so the handler sees the element's own `currentTime`. -/
def fireTimeupdate (a : AudioElem) (s : CtrlState) : CtrlState :=
  setTimeWhenPaused (some a.currentTime) s

/-- part_000 lines 66-70: the `durationchange` handler copies the bound
audio's `duration` into the duration ref unconditionally (no `NaN` guard). -/
def setDuration (audio : Option AudioElem) (s : CtrlState) : CtrlState :=
  match audio with
  | some a => { s with durationOverride := some a.duration }
  | none => s

/-- part_000 lines 103-149: the body of `watch(activeAudio.obj)`. With a new
audio bound it initializes the current time from the element, initializes the
duration only when the element's duration is truthy and not `NaN`, then
reconciles the status from the element's `paused`/`ended` flags, where the
unpaused branch goes through `setPlaying` (so `hasLoaded` decides between
`playing` and `loading`, and the time loop restarts). -/
def watchActiveAudio (audio : Option AudioElem) (s : CtrlState) : CtrlState :=
  match audio with
  | none => s
  | some a =>
    let s1 := { s with currentTime := a.currentTime }
    let s2 :=
      if jsTruthy a.duration && !jsIsNaN a.duration then
        { s1 with durationOverride := some a.duration }
      else s1
    if a.paused then
      if a.ended then setPlayed s2 else setPaused s2
    else
      setPlaying (some a) s2

/-- The analytics event names the track component emits. -/
inductive AudioInteraction
  | play
  | pause
  | seek
deriving DecidableEq, Repr

/-- The explicit argument of `handleToggle`:
`Exclude<AudioStatus, "loading" | "played">`. -/
inductive ToggleTarget
  | playing
  | paused
deriving DecidableEq, Repr

/-- The externally visible effects of one `handleToggle` call: whether
`play()` was invoked, whether `pause()` was invoked, and the analytics event
sent (if any). -/
structure ToggleEffects where
  playCalled : Bool
  pauseCalled : Bool
  event : Option AudioInteraction
deriving DecidableEq, Repr

/-- part_000 lines 171-201: `handleToggle`. The first `switch` resolves a
missing argument from the current status and has no `loading` arm, so there
the target stays unresolved; the second `switch` performs the play/pause call
and chooses the analytics event, which is sent only when one was chosen. -/
def handleToggle (status : AudioStatus) (state : Option ToggleTarget) :
    ToggleEffects :=
  let st : Option ToggleTarget :=
    match state with
    | some s => some s
    | none =>
      match status with
      | .playing => some .paused
      | .paused => some .playing
      | .played => some .playing
      | .loading => none
  match st with
  | some .playing => ⟨true, false, some .play⟩
  | some .paused => ⟨false, true, some .pause⟩
  | none => ⟨false, false, none⟩

/-- `handleToggle` together with the controller state it leaves behind: the
source handler assigns none of the refs (`status`, `currentTime`, the
duration ref), so the state passes through unchanged. -/
def handleToggleState (s : CtrlState) (state : Option ToggleTarget) :
    CtrlState × ToggleEffects :=
  (s, handleToggle s.status state)

/-- The outcome of a `handleSeeked` call: the (possibly updated) bound
element and whether the `seek` analytics event was sent. -/
structure SeekResult where
  audio : Option AudioElem
  seekEmitted : Bool
deriving DecidableEq, Repr

/-- part_000 lines 205-210: `handleSeeked` writes
`frac * duration.value` into the bound element's `currentTime` and emits the
`seek` analytics event; with no element bound it does nothing. -/
def handleSeeked (frac : ℚ) (audio : Option AudioElem)
    (propsDuration : Option JsNum) (s : CtrlState) : SeekResult :=
  match audio with
  | some a =>
    let t := jsMul (some frac) (displayedDuration propsDuration s)
    ⟨some { a with currentTime := t }, true⟩
  | none => ⟨none, false⟩

/-! ## The collapsible tag section (`VCollapsibleTagSection.vue`) -/

/-- `VCollapsibleTagSection.vue` line 17. -/
def ROWS_TO_DISPLAY : ℕ := 3

/-- The layout direction of the locale (`localeProperties.dir`). -/
inductive Dir
  | ltr
  | rtl
deriving DecidableEq, Repr

/-- `VCollapsibleTagSection.vue` lines 46-51: whether `current` is further
along the inline axis than `previous`, comparing `offsetLeft` values with the
comparison inverted for right-to-left locales. -/
def isFurtherInline (dir : Dir) (previous current : ℤ) : Bool :=
  match dir with
  | .rtl => previous < current
  | .ltr => previous > current

/-- Whether an element with offset `c` starts a new row, given its
predecessor's offset (`none` when it is the first child): lines 62-65 of the
component. -/
def newRowStart (dir : Dir) (prev : Option ℤ) (c : ℤ) : Bool :=
  match prev with
  | none => true
  | some p => isFurtherInline dir p c

/-- The loop of `findRowStartsAt` (lines 58-71): walk the children carrying
the running row count and index, returning the current index as soon as the
row count reaches `ROWS_TO_DISPLAY + 1`, and the total child count
otherwise. -/
def findRowStartsAtAux (dir : Dir) (total : ℕ) :
    Option ℤ → ℕ → ℕ → List ℤ → ℕ
  | _, _, _, [] => total
  | prev, rowCount, i, c :: rest =>
    let rowCount' := if newRowStart dir prev c then rowCount + 1 else rowCount
    if rowCount' = ROWS_TO_DISPLAY + 1 then i
    else findRowStartsAtAux dir total (some c) rowCount' (i + 1) rest

/-- `VCollapsibleTagSection.vue` lines 53-72: `findRowStartsAt` over the
children's `offsetLeft` values (the empty child list returns 0 early). -/
def findRowStartsAt (dir : Dir) (offsets : List ℤ) : ℕ :=
  if offsets.isEmpty then 0
  else findRowStartsAtAux dir offsets.length none 0 0 offsets

/-- The number of row starts in a child sequence, given the offset of the
element preceding it (`none` at the start of the container). -/
def countNewRows (dir : Dir) : Option ℤ → List ℤ → ℕ
  | _, [] => 0
  | prev, c :: rest =>
    (if newRowStart dir prev c then 1 else 0) + countNewRows dir (some c) rest

/-- A tag as the component receives it (only the `name` field matters). -/
structure Tag where
  name : String
deriving DecidableEq, Repr

/-- First-occurrence deduplication, as
`Array.from(new Set(list))` produces: keeps the first copy of each string. -/
def dedupFirst : List String → List String :=
  go []
where
  /-- `seen` accumulates the strings already kept. -/
  go (seen : List String) : List String → List String
    | [] => []
    | t :: rest =>
      if t ∈ seen then go seen rest else t :: go (t :: seen) rest

/-- `VCollapsibleTagSection.vue` lines 36-38: tag names, deduplicated in
first-occurrence order. -/
def normalizedTags (tags : List Tag) : List String :=
  dedupFirst (tags.map Tag.name)

/-- The expand/collapse button state (line 102): `show` = collapsed view. -/
inductive BtnStatus
  | show
  | hide
deriving DecidableEq, Repr

/-- `VCollapsibleTagSection.vue` lines 79-83: the rendered tags. The slice is
taken only when `collapsibleRowsStartAt` is truthy (set and non-zero) and the
button says `show`. -/
def visibleTags (tags : List Tag) (idx : Option ℕ) (btn : BtnStatus) :
    List String :=
  match idx with
  | some k =>
    if k ≠ 0 ∧ btn = .show then (normalizedTags tags).take k
    else normalizedTags tags
  | none => normalizedTags tags

/-- `VCollapsibleTagSection.vue` lines 85-90: truthiness of
`collapsibleRowsStartAt.value && collapsibleRowsStartAt.value < length`. -/
def hasOverflow (idx : Option ℕ) (len : ℕ) : Bool :=
  match idx with
  | some i => (i != 0) && (i < len)
  | none => false

/-- The synchronous part of the debounced width watcher, before `nextTick`:
whether the optimistic reveal ran, and the row-break index it leaves. -/
structure ResizePhase1 where
  revealed : Bool
  idx : Option ℕ
deriving DecidableEq, Repr

/-- `VCollapsibleTagSection.vue` line 147: JS truthiness of
`oldWidth && newWidth && newWidth > oldWidth` (an absent or zero width is
falsy, so it suppresses the comparison). -/
def isWidening (oldW newW : Option ℚ) : Bool :=
  match oldW, newW with
  | some o, some n => (o != 0) && (n != 0) && (o < n)
  | _, _ => false

/-- `VCollapsibleTagSection.vue` lines 141-151: the synchronous body of the
debounced width watcher. With no container bound it returns early; when
widening it sets the row-break index to the full tag count (revealing every
tag); otherwise it leaves the index alone. The re-measurement is the separate
`nextTick` phase, `resizeRemeasure`. -/
def resizeSync (containerBound : Bool) (oldW newW : Option ℚ)
    (tagCount : ℕ) (idx : Option ℕ) : ResizePhase1 :=
  if containerBound then
    if isWidening oldW newW then ⟨true, some tagCount⟩ else ⟨false, idx⟩
  else ⟨false, idx⟩

/-- `VCollapsibleTagSection.vue` lines 152-156: the `nextTick` phase stores
the freshly measured row-break index whenever the container is still
bound. -/
def resizeRemeasure (containerBound : Bool) (idx : Option ℕ)
    (measured : ℕ) : Option ℕ :=
  if containerBound then some measured else idx

/-! ## Playback controller theorems -/

/-- C1 (counterexample): rebinding to a resource with `paused = false`,
`ended = true` on a track that has not loaded yields status `loading` — not
`played` (despite `ended = true`) and not `playing` (despite
`paused = false`), contradicting the claim's reconciliation table. -/
theorem watch_reconcile_claim_false :
    (watchActiveAudio (some ⟨false, true, some 0, some 10⟩)
        (initState false)).status ≠ .played
    ∧ (watchActiveAudio (some ⟨false, true, some 0, some 10⟩)
        (initState false)).status ≠ .playing
    ∧ (watchActiveAudio (some ⟨false, true, some 0, some 10⟩)
        (initState false)).status = .loading := by
  refine ⟨?_, ?_, ?_⟩ <;> decide

/-- C1 (amended): on rebinding, the status is reconciled by consulting
`paused` first: when paused, `ended` picks `played` over `paused`; when not
paused, the status becomes `playing` if the track has loaded and `loading`
otherwise, and in either unpaused case the sync loop is restarted. `ended` is
never consulted when `paused` is false. -/
theorem watch_reconcile_spec (a : AudioElem) (s : CtrlState) :
    (watchActiveAudio (some a) s).status =
      (if a.paused then (if a.ended then AudioStatus.played else .paused)
       else if s.hasLoaded then .playing else .loading)
    ∧ (watchActiveAudio (some a) s).loopScheduled =
      (if a.paused then s.loopScheduled else true) := by
  unfold watchActiveAudio
  cases hp : a.paused <;> cases he : a.ended <;> cases hl : s.hasLoaded <;>
    cases hd : jsTruthy a.duration && !jsIsNaN a.duration <;>
      simp [hp, he, hl, hd, setPlaying, setPaused, setPlayed, updateTimeLoop]

/-- C2 (counterexample): with a numeric track-metadata duration of 5000 ms
the displayed duration starts at 5 s (not 0, with no resource duration yet
observed); and from a state displaying 0, a `durationchange` event carrying a
`NaN` resource duration overwrites the displayed duration with `NaN`. -/
theorem duration_claim_false :
    displayedDuration (some (some 5000)) (initState false) ≠ some 0
    ∧ displayedDuration none (initState false) = some 0
    ∧ displayedDuration none
        (setDuration (some ⟨true, false, some 0, none⟩) (initState false)) ≠
        some 0
    ∧ displayedDuration none
        (setDuration (some ⟨true, false, some 0, none⟩) (initState false)) =
        none := by
  refine ⟨?_, rfl, ?_, rfl⟩
  · simp only [displayedDuration, initState, durationDefault, jsDiv1000]
    norm_num
  · decide

/-- C2 (amended): the displayed duration defaults to the track metadata
duration (milliseconds / 1000) when that is a number (which may itself be
`NaN`) and to 0 otherwise, until a value is explicitly stored; during
rebinding a falsy or `NaN` resource duration is suppressed and does not
overwrite the stored duration, but the `durationchange` handler copies the
resource duration unconditionally, `NaN` included. -/
theorem duration_handling_spec (propsDuration : Option JsNum) (q : ℚ)
    (a : AudioElem) (s : CtrlState) (hl : Bool) :
    displayedDuration propsDuration (initState hl) =
      durationDefault propsDuration
    ∧ durationDefault none = some 0
    ∧ durationDefault (some (some q)) = some (q / 1000)
    ∧ durationDefault (some none) = none
    ∧ (watchActiveAudio (some a) s).durationOverride =
      (if jsTruthy a.duration && !jsIsNaN a.duration
       then some a.duration else s.durationOverride)
    ∧ (setDuration (some a) s).durationOverride = some a.duration := by
  refine ⟨rfl, rfl, rfl, rfl, ?_, rfl⟩
  unfold watchActiveAudio
  cases hp : a.paused <;> cases he : a.ended <;>
    cases hd : jsTruthy a.duration && !jsIsNaN a.duration <;>
      simp [hp, he, hd, setPlaying, setPaused, setPlayed, updateTimeLoop]

/-- C4: a `timeupdate` event fired by the bound element leaves the state
untouched while the status is `playing`; otherwise it copies the element's
current time into the displayed time and downgrades a `played` status to
`paused` (all other fields and statuses are preserved). -/
theorem timeupdate_spec (a : AudioElem) (s : CtrlState) :
    fireTimeupdate a s =
      if s.status = .playing then s
      else { s with currentTime := a.currentTime,
                    status := if s.status = .played then .paused
                              else s.status } := by
  unfold fireTimeupdate setTimeWhenPaused
  cases h : s.status <;> simp [h]

/-- C6: `handleToggle` with an explicit target plays / emits `play` for
`playing` and pauses / emits `pause` for `paused` regardless of the current
status; with no target it resolves `playing → paused` and
`paused, played → playing`; from `loading` the target stays unresolved and
nothing is called or emitted. -/
theorem handleToggle_spec :
    (∀ s, handleToggle s (some .playing) = ⟨true, false, some .play⟩)
    ∧ (∀ s, handleToggle s (some .paused) = ⟨false, true, some .pause⟩)
    ∧ handleToggle .playing none = ⟨false, true, some .pause⟩
    ∧ handleToggle .paused none = ⟨true, false, some .play⟩
    ∧ handleToggle .played none = ⟨true, false, some .play⟩
    ∧ handleToggle .loading none = ⟨false, false, none⟩ := by
  refine ⟨fun s => ?_, fun s => ?_, rfl, rfl, rfl, rfl⟩ <;> cases s <;> rfl

/-- C10: toggling with no explicit target while the status is `loading` is a
complete no-op: the controller state (status, displayed time, stored
duration, flags) is returned unchanged and neither a play/pause call nor an
analytics event is produced. -/
theorem toggle_loading_noop (ct : JsNum) (dOv : Option JsNum)
    (hl ls : Bool) :
    handleToggleState ⟨.loading, ct, dOv, hl, ls⟩ none =
      (⟨.loading, ct, dOv, hl, ls⟩, ⟨false, false, none⟩) := rfl

/-- C8: `handleSeeked frac` with a bound element writes
`frac * displayedDuration` into the element's current time and emits the
`seek` event; in particular fraction 1/2 at displayed duration 200 writes
100; with no element bound nothing changes and no event is emitted. -/
theorem seek_spec (frac : ℚ) (propsDuration : Option JsNum)
    (s : CtrlState) :
    (∀ a, handleSeeked frac (some a) propsDuration s =
      ⟨some { a with currentTime := jsMul (some frac) (displayedDuration propsDuration s) }, true⟩)
    ∧ handleSeeked frac none propsDuration s = ⟨none, false⟩
    ∧ (∀ a, (handleSeeked (1 / 2) (some a) propsDuration
          { s with durationOverride := some (some 200) }).audio =
        some { a with currentTime := some 100 }) := by
  refine ⟨fun a => rfl, rfl, fun a => ?_⟩
  show some _ = some _
  norm_num [handleSeeked, displayedDuration, jsMul]

/-- C9: one tick of the time-sync loop reschedules itself exactly when an
element is bound and the status is `playing` or `loading`; a rescheduling
tick stores the element's current time as the displayed time; the tick never
changes the status, and a non-rescheduling tick leaves the displayed time
untouched. -/
theorem timeLoop_spec (audio : Option AudioElem) (s : CtrlState) :
    ((updateTimeLoop audio s).loopScheduled = true ↔
        audio.isSome = true ∧ (s.status = .playing ∨ s.status = .loading))
    ∧ (updateTimeLoop audio s).status = s.status
    ∧ (∀ a, audio = some a → (s.status = .playing ∨ s.status = .loading) →
        (updateTimeLoop audio s).currentTime = a.currentTime)
    ∧ ((updateTimeLoop audio s).loopScheduled = false →
        (updateTimeLoop audio s).currentTime = s.currentTime) := by
  cases audio with
  | none => simp [updateTimeLoop]
  | some a =>
    by_cases h : s.status = .playing ∨ s.status = .loading <;>
      simp [updateTimeLoop, h]

/-! ## Row-start detection lemmas -/

/-- There are at most as many row starts as elements. -/
lemma countNewRows_le (dir : Dir) :
    ∀ (l : List ℤ) (prev : Option ℤ), countNewRows dir prev l ≤ l.length := by
  intro l
  induction l with
  | nil => intro prev; simp [countNewRows]
  | cons c rest ih =>
    intro prev
    rw [countNewRows]
    have := ih (some c)
    split <;> simp <;> omega

/-- When fewer than four row starts remain, the loop falls through and
returns `total`. -/
lemma findAux_low (dir : Dir) :
    ∀ (l : List ℤ) (prev : Option ℤ) (rowCount i total : ℕ),
      countNewRows dir prev l + rowCount ≤ 3 →
      findRowStartsAtAux dir total prev rowCount i l = total := by
  intro l
  induction l with
  | nil => intro prev rowCount i total _; rfl
  | cons c rest ih =>
    intro prev rowCount i total h
    rw [countNewRows] at h
    rw [findRowStartsAtAux]
    by_cases hb : newRowStart dir prev c = true
    · simp only [hb, if_true] at h ⊢
      rw [if_neg (by simp [ROWS_TO_DISPLAY]; omega)]
      exact ih (some c) (rowCount + 1) (i + 1) total (by omega)
    · rw [Bool.not_eq_true] at hb
      simp only [hb, Bool.false_eq_true, if_false] at h ⊢
      rw [if_neg (by simp [ROWS_TO_DISPLAY]; omega)]
      exact ih (some c) rowCount (i + 1) total (by omega)

/-- When at least four row starts occur, the loop stops at the element whose
row start is the fourth: the returned index is `i + k` for a position `k`
inside the list, the first `k + 1` elements contain exactly four row starts
and the first `k` exactly three (all counts offset by the entering
`rowCount`). -/
lemma findAux_high (dir : Dir) :
    ∀ (l : List ℤ) (prev : Option ℤ) (rowCount i total : ℕ),
      rowCount ≤ 3 →
      4 ≤ countNewRows dir prev l + rowCount →
      ∃ k, k < l.length ∧
        findRowStartsAtAux dir total prev rowCount i l = i + k ∧
        countNewRows dir prev (l.take (k + 1)) + rowCount = 4 ∧
        countNewRows dir prev (l.take k) + rowCount = 3 := by
  intro l
  induction l with
  | nil =>
    intro prev rowCount i total h3 h4
    rw [countNewRows] at h4
    omega
  | cons c rest ih =>
    intro prev rowCount i total h3 h4
    rw [countNewRows] at h4
    rw [findRowStartsAtAux]
    by_cases hb : newRowStart dir prev c = true
    · simp only [hb, if_true] at h4 ⊢
      by_cases hhit : rowCount + 1 = 4
      · rw [if_pos (by simp [ROWS_TO_DISPLAY]; omega)]
        refine ⟨0, by simp, by omega, ?_, ?_⟩
        · simp [countNewRows, hb]; omega
        · simp [countNewRows]; omega
      · rw [if_neg (by simp [ROWS_TO_DISPLAY]; omega)]
        obtain ⟨k, hk, heq, ht4, ht3⟩ :=
          ih (some c) (rowCount + 1) (i + 1) total (by omega) (by omega)
        refine ⟨k + 1, by simpa using hk, by omega, ?_, ?_⟩
        · simp only [List.take_succ_cons, countNewRows, hb, if_true]
          omega
        · simp only [List.take_succ_cons, countNewRows, hb, if_true]
          omega
    · rw [Bool.not_eq_true] at hb
      simp only [hb, Bool.false_eq_true, if_false] at h4 ⊢
      rw [if_neg (by simp [ROWS_TO_DISPLAY]; omega)]
      obtain ⟨k, hk, heq, ht4, ht3⟩ :=
        ih (some c) rowCount (i + 1) total h3 (by omega)
      refine ⟨k + 1, by simpa using hk, by omega, ?_, ?_⟩
      · simp only [List.take_succ_cons, countNewRows, hb, Bool.false_eq_true,
          if_false]
        omega
      · simp only [List.take_succ_cons, countNewRows, hb, Bool.false_eq_true,
          if_false]
        omega

/-- The two possible outcomes of `findRowStartsAt`: either fewer than four
rows occur and the total count is returned, or the returned index is inside
the list and marks exactly the element whose row start is the fourth. -/
lemma findRowStartsAt_cases (dir : Dir) (offsets : List ℤ) :
    (countNewRows dir none offsets ≤ 3 ∧
        findRowStartsAt dir offsets = offsets.length)
    ∨ (4 ≤ countNewRows dir none offsets ∧
        findRowStartsAt dir offsets < offsets.length ∧
        countNewRows dir none
            (offsets.take (findRowStartsAt dir offsets + 1)) = 4 ∧
        countNewRows dir none (offsets.take (findRowStartsAt dir offsets)) =
          3) := by
  by_cases h : countNewRows dir none offsets ≤ 3
  · left
    refine ⟨h, ?_⟩
    unfold findRowStartsAt
    by_cases he : offsets.isEmpty
    · rw [if_pos he]
      rw [List.isEmpty_iff] at he
      simp [he]
    · rw [if_neg he]
      exact findAux_low dir offsets none 0 0 offsets.length (by omega)
  · right
    have h4 : 4 ≤ countNewRows dir none offsets := by omega
    have hne : ¬ offsets.isEmpty = true := by
      intro he
      rw [List.isEmpty_iff] at he
      rw [he] at h4
      simp [countNewRows] at h4
    obtain ⟨k, hk, heq, ht4, ht3⟩ :=
      findAux_high dir offsets none 0 0 offsets.length (by omega) (by omega)
    unfold findRowStartsAt
    rw [if_neg hne, heq]
    simp only [Nat.zero_add] at *
    exact ⟨h4, hk, by simpa using ht4, by simpa using ht3⟩

/-- The measured index never exceeds the number of measured elements. -/
lemma findRowStartsAt_le (dir : Dir) (offsets : List ℤ) :
    findRowStartsAt dir offsets ≤ offsets.length := by
  rcases findRowStartsAt_cases dir offsets with ⟨_, h⟩ | ⟨_, h, _⟩
  · omega
  · omega

/-- A measured index of 0 only arises from an empty child list. -/
lemma findRowStartsAt_eq_zero (dir : Dir) (offsets : List ℤ)
    (h : findRowStartsAt dir offsets = 0) : offsets.length = 0 := by
  rcases findRowStartsAt_cases dir offsets with ⟨_, hl⟩ | ⟨_, _, ht4, _⟩
  · omega
  · rw [h] at ht4
    simp only [Nat.zero_add] at ht4
    have h1 : countNewRows dir none (offsets.take 1) ≤ (offsets.take 1).length :=
      countNewRows_le dir (offsets.take 1) none
    have h2 : (offsets.take 1).length ≤ 1 := by
      simp [List.length_take]
    omega

/-- The rendered (visible) tags are never more numerous than the normalized
tags. -/
lemma visibleTags_length_le (tags : List Tag) (idx : Option ℕ)
    (btn : BtnStatus) :
    (visibleTags tags idx btn).length ≤ (normalizedTags tags).length := by
  cases idx with
  | none => simp [visibleTags]
  | some k =>
    simp only [visibleTags]
    split <;> simp [List.length_take]

/-- When no tags render, the normalized tag list itself is empty: the slice
is only ever taken with a truthy (non-zero) index. -/
lemma visibleTags_eq_nil (tags : List Tag) (idx : Option ℕ)
    (btn : BtnStatus) (h : (visibleTags tags idx btn).length = 0) :
    (normalizedTags tags).length = 0 := by
  cases idx with
  | none => simpa [visibleTags] using h
  | some k =>
    simp only [visibleTags] at h
    split at h
    · rename_i hc
      simp only [List.length_take] at h
      omega
    · exact h

/-! ## Tag section theorems -/

/-- C5: `findRowStartsAt` counts a row start exactly at an element with no
predecessor or (left-to-right) an `offsetLeft` strictly below its
predecessor's (inverted right-to-left); when at least
`ROWS_TO_DISPLAY + 1 = 4` row starts occur it returns the index of the
element whose row start is the fourth (four row starts among the elements up
to and including it, three strictly before it), and otherwise it returns the
total element count. -/
theorem rowBreak_characterization (dir : Dir) (offsets : List ℤ) :
    ((countNewRows dir none offsets ≤ ROWS_TO_DISPLAY ∧
        findRowStartsAt dir offsets = offsets.length)
      ∨ (ROWS_TO_DISPLAY + 1 ≤ countNewRows dir none offsets ∧
          findRowStartsAt dir offsets < offsets.length ∧
          countNewRows dir none
              (offsets.take (findRowStartsAt dir offsets + 1)) =
            ROWS_TO_DISPLAY + 1 ∧
          countNewRows dir none
              (offsets.take (findRowStartsAt dir offsets)) =
            ROWS_TO_DISPLAY))
    ∧ (∀ c : ℤ, newRowStart dir none c = true)
    ∧ (∀ p c : ℤ, newRowStart .ltr (some p) c = decide (c < p))
    ∧ (∀ p c : ℤ, newRowStart .rtl (some p) c = decide (p < c))
    ∧ ROWS_TO_DISPLAY + 1 = 4 := by
  refine ⟨?_, fun c => rfl, fun p c => ?_, fun p c => ?_, rfl⟩
  · exact findRowStartsAt_cases dir offsets
  · simp [newRowStart, isFurtherInline, gt_iff_lt]
  · rfl

/-- C3: for a child measurement taken over the currently rendered tags, the
computed row-break index lies in `[0, normalizedTags.length]`, and
`hasOverflow` (with its JS truthiness on the index) is `true` exactly when
the index is strictly below the normalized tag count. -/
theorem tagOverflow_invariant (tags : List Tag) (prevIdx : Option ℕ)
    (btn : BtnStatus) (dir : Dir) (offsets : List ℤ)
    (hlen : offsets.length = (visibleTags tags prevIdx btn).length) :
    findRowStartsAt dir offsets ≤ (normalizedTags tags).length
    ∧ (hasOverflow (some (findRowStartsAt dir offsets))
          (normalizedTags tags).length = true
        ↔ findRowStartsAt dir offsets < (normalizedTags tags).length) := by
  have hle : findRowStartsAt dir offsets ≤ (normalizedTags tags).length := by
    calc findRowStartsAt dir offsets ≤ offsets.length :=
          findRowStartsAt_le dir offsets
      _ = (visibleTags tags prevIdx btn).length := hlen
      _ ≤ (normalizedTags tags).length :=
          visibleTags_length_le tags prevIdx btn
  refine ⟨hle, ?_⟩
  rw [hasOverflow]
  rw [Bool.and_eq_true, bne_iff_ne, decide_eq_true_eq]
  constructor
  · rintro ⟨_, hlt⟩
    exact hlt
  · intro hlt
    refine ⟨?_, hlt⟩
    intro h0
    have hz : offsets.length = 0 := findRowStartsAt_eq_zero dir offsets h0
    have : (normalizedTags tags).length = 0 :=
      visibleTags_eq_nil tags prevIdx btn (by omega)
    omega

/-- Witness for the C3 invariant at a concrete two-tag layout measured in a
single row. -/
theorem tagOverflow_invariant_witness :
    findRowStartsAt .ltr [0, 0] ≤ (normalizedTags [⟨"a"⟩, ⟨"b"⟩]).length
    ∧ (hasOverflow (some (findRowStartsAt .ltr [0, 0]))
          (normalizedTags [⟨"a"⟩, ⟨"b"⟩]).length = true
        ↔ findRowStartsAt .ltr [0, 0] < (normalizedTags [⟨"a"⟩, ⟨"b"⟩]).length) :=
  tagOverflow_invariant [⟨"a"⟩, ⟨"b"⟩] none .show .ltr [0, 0] (by decide)

/-- C7 (counterexample): a resize from measured width 0 to measured width 5
is strictly widening, yet the handler performs no optimistic reveal (width 0
is falsy in the `oldWidth && newWidth && newWidth > oldWidth` test) and
leaves the row-break index alone. -/
theorem resize_reveal_claim_false :
    (0 : ℚ) < 5
    ∧ (resizeSync true (some 0) (some 5) 7 (some 3)).revealed = false
    ∧ (resizeSync true (some 0) (some 5) 7 (some 3)).idx = some 3 := by
  refine ⟨by norm_num, ?_, ?_⟩ <;> decide

/-- C7 (amended): the optimistic reveal runs exactly when both the previous
and the new measured widths are present and non-zero (truthy) and the new one
is strictly greater; when it runs it sets the row-break index to the full tag
count, otherwise the index is left alone; the `nextTick` re-measurement
stores the freshly measured index in either case. -/
theorem resize_reveal_spec (oldW newW : Option ℚ) (tagCount : ℕ)
    (idx : Option ℕ) :
    (isWidening oldW newW = true ↔
        ∃ o n, oldW = some o ∧ newW = some n ∧ o ≠ 0 ∧ n ≠ 0 ∧ o < n)
    ∧ resizeSync true oldW newW tagCount idx =
        (if isWidening oldW newW then ⟨true, some tagCount⟩ else ⟨false, idx⟩)
    ∧ resizeSync false oldW newW tagCount idx = ⟨false, idx⟩
    ∧ (∀ m, resizeRemeasure true idx m = some m) := by
  refine ⟨?_, rfl, rfl, fun m => rfl⟩
  cases oldW with
  | none => simp [isWidening]
  | some o =>
    cases newW with
    | none => simp [isWidening]
    | some n =>
      simp only [isWidening, Bool.and_eq_true, bne_iff_ne, decide_eq_true_eq]
      constructor
      · rintro ⟨⟨ho, hn⟩, hlt⟩
        exact ⟨o, n, rfl, rfl, ho, hn, hlt⟩
      · rintro ⟨o', n', ho', hn', h1, h2, h3⟩
        cases ho'
        cases hn'
        exact ⟨⟨h1, h2⟩, h3⟩

end Spec2Proof
